import Mathlib

/-!
Shallow embedding of the Project-Genesis durable task scheduler and its
collaborators (store, webhook ingress, worker loop, janitor), translated
from the TypeScript sources in `src/server` and `src/shared`.

Machine timestamps (JS `Date.now()` milliseconds and SQL `NOW()`) are
modelled as `Int`; calendar dates (SQL `CURRENT_DATE`) as the integer UTC
day number `now / dayMs`.  SQL transactions are modelled as atomic pure
state transformers on a `DB` value; `SELECT ... FOR UPDATE SKIP LOCKED`
is modelled by passing the set of row ids currently locked by other
transactions as an explicit argument.  External collaborators (the
payment provider SDK, the email gateway) are modelled as oracle
parameters deciding the outcome of each outbound call.
-/

namespace Genesis

/-- Task status values, from `TaskStatus` in `shared/schema.ts`. -/
inductive TaskStatus where
  | pending
  | running
  | completed
  | failed
deriving DecidableEq, Repr

/-- The slice of the task JSON payload that the worker reads
(`invoiceId`, `attemptCount`, `hostedInvoiceUrl`). -/
structure Payload where
  invoiceId : String
  attemptCount : Option Nat
  hostedInvoiceUrl : Option String
deriving DecidableEq, Repr

/-- A row of `scheduled_tasks` (`shared/schema.ts`). -/
structure Task where
  id : Nat
  merchantId : String
  taskType : String
  payload : Payload
  status : TaskStatus
  runAt : Int
  createdAt : Int
deriving DecidableEq, Repr

/-- A row of `usage_logs` (`shared/schema.ts`), with the columns the
embedded operations touch. -/
structure UsageLog where
  id : Nat
  merchantId : String
  metricType : String
  amount : Nat
  createdAt : Int
  reportedAt : Option Int
deriving DecidableEq, Repr

/-- A row of `processed_events` (`shared/schema.ts`). -/
structure ProcessedEvent where
  eventId : String
  processedAt : Int
deriving DecidableEq, Repr

/-- A row of `daily_metrics` (`shared/schema.ts`); primary key
`(merchantId, metricDate)`. -/
structure DailyMetric where
  merchantId : String
  metricDate : Int
  recoveredCents : Int
  emailsSent : Int
  totalOpens : Int
  totalClicks : Int
deriving DecidableEq, Repr

/-- A row of `merchants` (`shared/schema.ts`), restricted to the columns
read by the embedded operations. -/
structure Merchant where
  id : String
  email : Option String
  stripeConnectId : Option String
  stripeCustomerId : Option String
  subscriptionPlanId : Option String
deriving DecidableEq, Repr

/-- The relational store: one list per table plus serial-id counters. -/
structure DB where
  merchants : List Merchant
  tasks : List Task
  nextTaskId : Nat
  usageLogs : List UsageLog
  nextLogId : Nat
  processedEvents : List ProcessedEvent
  dailyMetrics : List DailyMetric
deriving DecidableEq, Repr

/-- A record of one accepted email-gateway send. -/
structure EmailSend where
  recipient : String
  kind : String
  merchantId : String
deriving DecidableEq, Repr

/-- The store plus the externally observable email side effects. -/
structure World where
  db : DB
  emails : List EmailSend
deriving DecidableEq, Repr

/-- Milliseconds in a day. -/
def dayMs : Int := 24 * 60 * 60 * 1000

/-- The UTC day number of a millisecond timestamp; models SQL
`CURRENT_DATE`. -/
def dayOf (now : Int) : Int := now / dayMs

/-! ## Store operations (`DatabaseStorage` in `src/server/storage.ts`) -/

/-- From `DatabaseStorage.attemptEventLock`: `INSERT ... ON CONFLICT DO
NOTHING RETURNING *`; true iff the row was inserted (first writer).  A
conflicting insert is not an error: it resolves as `false`. -/
def attemptEventLock (eventId : String) (now : Int) (db : DB) : Bool × DB :=
  if db.processedEvents.any (fun p => p.eventId == eventId) then
    (false, db)
  else
    (true, { db with processedEvents := db.processedEvents ++ [⟨eventId, now⟩] })

/-- The `WHERE status = 'pending' AND run_at <= NOW()` condition of
`claimNextTask`, together with `SKIP LOCKED` (the row must not be locked
by a concurrent transaction). -/
def isReady (now : Int) (locked : List Nat) (t : Task) : Bool :=
  decide (t.status = TaskStatus.pending) && decide (t.runAt ≤ now)
    && !(locked.contains t.id)

/-- The in-transaction `UPDATE scheduled_tasks SET status='running' WHERE
id = $2`. -/
def markRunning (id : Nat) (l : List Task) : List Task :=
  l.map fun u => if u.id = id then { u with status := TaskStatus.running } else u

/-- From `DatabaseStorage.claimNextTask`: one transaction that selects the
ready row with the least `run_at` among rows not locked by other
transactions (`ORDER BY run_at ASC LIMIT 1 FOR UPDATE SKIP LOCKED`),
flips it to `running`, commits, and returns the claimed row. -/
def claimNextTask (now : Int) (locked : List Nat) (db : DB) : Option Task × DB :=
  match (db.tasks.filter (isReady now locked)).argmin Task.runAt with
  | none => (none, db)
  | some t =>
      (some { t with status := TaskStatus.running },
       { db with tasks := markRunning t.id db.tasks })

/-- From `DatabaseStorage.updateTaskStatus`: unconditional status write on
the row with the given id. -/
def updateTaskStatus (id : Nat) (s : TaskStatus) (db : DB) : DB :=
  { db with tasks := db.tasks.map fun u => if u.id = id then { u with status := s } else u }

/-- The caller-supplied fields of a task insert. -/
structure InsertTask where
  merchantId : String
  taskType : String
  payload : Payload
  status : TaskStatus
  runAt : Int
deriving DecidableEq, Repr

/-- From `DatabaseStorage.createTask`: insert with a fresh serial id and
`created_at = NOW()`, returning the created row. -/
def createTask (t : InsertTask) (now : Int) (db : DB) : Task × DB :=
  let task : Task :=
    ⟨db.nextTaskId, t.merchantId, t.taskType, t.payload, t.status, t.runAt, now⟩
  (task, { db with tasks := db.tasks ++ [task], nextTaskId := db.nextTaskId + 1 })

/-- JS `log.amount || 1`: an absent amount and the falsy amount `0` both
resolve to the default `1`. -/
def resolveAmount (amount : Option Nat) : Nat :=
  match amount with
  | none => 1
  | some 0 => 1
  | some k => k

/-- The `INSERT INTO daily_metrics ... ON CONFLICT (merchant_id,
metric_date) DO UPDATE SET`: on a key collision the increments are ADDED
to the existing counters, otherwise a fresh row is inserted. -/
def upsertDailyMetric (m : String) (today : Int) (cents : Int) (sent : Int)
    (l : List DailyMetric) : List DailyMetric :=
  if l.any (fun d => d.merchantId == m && d.metricDate == today) then
    l.map fun d =>
      if d.merchantId = m ∧ d.metricDate = today then
        { d with recoveredCents := d.recoveredCents + cents,
                 emailsSent := d.emailsSent + sent }
      else d
  else
    l ++ [⟨m, today, cents, sent, 0, 0⟩]

/-- From `DatabaseStorage.createUsageLog` (transactional revision): one
transaction inserting the usage-log row and upserting `daily_metrics`
for the current date, adding `recovered_cents + 0` and
`emails_sent + (amount || 1)` iff the metric is `dunning_email_sent`,
else `+ 0`; returns the inserted row. -/
def createUsageLog (merchantId metricType : String) (amount : Option Nat)
    (now : Int) (db : DB) : UsageLog × DB :=
  let amt := resolveAmount amount
  let row : UsageLog := ⟨db.nextLogId, merchantId, metricType, amt, now, none⟩
  let sent : Int := if metricType = "dunning_email_sent" then (amt : Int) else 0
  (row,
   { db with usageLogs := db.usageLogs ++ [row],
             nextLogId := db.nextLogId + 1,
             dailyMetrics := upsertDailyMetric merchantId (dayOf now) 0 sent db.dailyMetrics })

/-- From `DatabaseStorage.getMonthlyDunningCount`:
`COALESCE(SUM(amount),0)` over `dunning_email_sent` rows created since
the first instant of the current month (`monthStart`). -/
def getMonthlyDunningCount (merchantId : String) (monthStart : Int) (db : DB) : Nat :=
  ((db.usageLogs.filter fun l =>
      l.merchantId == merchantId && l.metricType == "dunning_email_sent"
        && decide (monthStart ≤ l.createdAt)).map UsageLog.amount).sum

/-- From `DatabaseStorage.getPendingUsageLogs`: the oldest `limit` rows
with `reported_at IS NULL`, ordered by `created_at` ascending. -/
def getPendingUsageLogs (limit : Nat) (db : DB) : List UsageLog :=
  ((db.usageLogs.filter fun l => l.reportedAt.isNone).mergeSort
      (fun a b => a.createdAt ≤ b.createdAt)).take limit

/-- From `DatabaseStorage.markUsageAsReported`: `SET reported_at = NOW()
WHERE id = ANY(ids)`. -/
def markUsageAsReported (ids : List Nat) (now : Int) (db : DB) : DB :=
  { db with usageLogs := db.usageLogs.map fun l =>
      if ids.contains l.id then { l with reportedAt := some now } else l }

/-- From `DatabaseStorage.getMerchant`. -/
def getMerchant (id : String) (db : DB) : Option Merchant :=
  db.merchants.find? fun m => m.id == id

/-- From `DatabaseStorage.getMerchantByStripeConnectId`. -/
def getMerchantByStripeConnectId (cid : String) (db : DB) : Option Merchant :=
  db.merchants.find? fun m => m.stripeConnectId == some cid

/-- Modelled from the spec: `storage.getMerchantByStripeCustomerId`, called
by `handleSubscriptionUpdated`, is declared on later storage revisions not
present under `src/`; the spec describes it as resolving the merchant by
platform customer id, a single-key lookup like its siblings. -/
def getMerchantByStripeCustomerId (cid : String) (db : DB) : Option Merchant :=
  db.merchants.find? fun m => m.stripeCustomerId == some cid

/-- The `updateMerchant` write performed by `handleSubscriptionUpdated`:
set `subscription_plan_id` on the row with the given merchant id. -/
def updateMerchantPlan (id : String) (planId : String) (db : DB) : DB :=
  { db with merchants := db.merchants.map fun m =>
      if m.id = id then { m with subscriptionPlanId := some planId } else m }

/-- From `runCleanup` in `src/server/middleware.ts` (cron revision): the
janitor resets `running` tasks older than 10 minutes to `pending` with
`run_at = NOW()`, then deletes `processed_events` rows older than 7
days. -/
def runCleanup (now : Int) (db : DB) : DB :=
  { db with
    tasks := db.tasks.map fun t =>
      if t.status = TaskStatus.running ∧ t.createdAt < now - 10 * 60 * 1000 then
        { t with status := TaskStatus.pending, runAt := now }
      else t,
    processedEvents := db.processedEvents.filter fun p =>
      !decide (p.processedAt < now - 7 * dayMs) }

/-! ## Plans (`src/shared/plans.ts`) and quota limits -/

/-- One entry of the static `PLANS` map. -/
structure PlanConfig where
  name : String
  limit : Nat
  queueLimit : Nat
deriving DecidableEq, Repr

/-- The closed static `PLANS` mapping from `src/shared/plans.ts`. -/
def PLANS : List (String × PlanConfig) :=
  [("price_free", ⟨"Hobby", 20, 5⟩),
   ("price_growth", ⟨"Growth", 1000, 100⟩),
   ("price_pro", ⟨"Pro", 10000, 1000⟩),
   ("default", ⟨"Basic", 20, 5⟩)]

/-- JS object lookup `PLANS[planId]`. -/
def lookupPlan (planId : String) : Option PlanConfig :=
  (PLANS.find? fun p => p.1 == planId).map Prod.snd

/-- The `'default'` entry of `PLANS`. -/
def defaultPlan : PlanConfig := ⟨"Basic", 20, 5⟩

/-- From `getPlanLimit` in the worker (`src/server/middleware.ts`):
`planId ? PLANS[planId] : PLANS['default']`, then `plan?.limit ??
PLANS['default'].limit`.  A null or empty (falsy) plan id and an unknown
plan id all fall back to the default limit. -/
def getPlanLimit (planId : Option String) : Nat :=
  let plan : Option PlanConfig :=
    match planId with
    | some p => if p = "" then some defaultPlan else lookupPlan p
    | none => some defaultPlan
  (plan.getD defaultPlan).limit

/-- The reporter's plan lookup
`PLANS[merchant.subscriptionPlanId || ''] || PLANS['default']`. -/
def getPlanConfig (planId : Option String) : PlanConfig :=
  let key := match planId with
    | some p => p
    | none => ""
  (lookupPlan key).getD defaultPlan

/-! ## Webhook ingress (`src/server/webhookHandlers.ts`) -/

/-- From `calculateRetryDelay`: `invoice.attempt_count || 1` (the falsy
values `0` and absent default to `1`), then the `{1: 3d, 2: 5d, 3: 7d}`
table with a 7-day fallback, in milliseconds. -/
def calculateRetryDelay (attemptCountField : Option Nat) : Int :=
  let attemptCount :=
    match attemptCountField with
    | none => 1
    | some 0 => 1
    | some k => k
  match attemptCount with
  | 1 => 3 * dayMs
  | 2 => 5 * dayMs
  | 3 => 7 * dayMs
  | _ => 7 * dayMs

/-- The fields of a payment-provider event that the handlers read:
`event.id`, `event.type`, `event.account`, and the slice of
`event.data.object` used for invoices and subscriptions. -/
structure SEvent where
  id : String
  type : String
  account : Option String
  invoiceId : String
  billingReason : Option String
  attemptCount : Option Nat
  hostedInvoiceUrl : Option String
  subCustomerId : String
  subPriceId : Option String
  subStatus : String
deriving DecidableEq, Repr

/-- The `action` field of `WebhookResult`. -/
inductive WAction where
  | ignored
  | enqueued
  | error
  | processed
deriving DecidableEq, Repr

/-- The `WebhookResult` record (reason strings elided). -/
structure WebhookResult where
  processed : Bool
  action : WAction
  taskId : Option Nat
deriving DecidableEq, Repr

/-- Oracle for the fallible store inserts inside the webhook handlers:
whether `createTask` and `createUsageLog` throw (caught by the
surrounding `try`, producing an `error` result). -/
structure HandlerEnv where
  createTaskFails : Bool
  usageLogFails : Bool
deriving DecidableEq, Repr

/-- From `enqueueDunningTask`: resolve the tenant by the Connect account
id on the event (erroring when absent or unknown), compute `run_at = now
+ calculateRetryDelay(invoice)`, insert the `dunning_retry` task, and
log `task_scheduled`; any throw is caught and returned as an `error`
result. -/
def enqueueDunningTask (event : SEvent) (env : HandlerEnv) (now : Int)
    (db : DB) : WebhookResult × DB :=
  match event.account with
  | none => (⟨true, WAction.error, none⟩, db)
  | some cid =>
    match getMerchantByStripeConnectId cid db with
    | none => (⟨true, WAction.error, none⟩, db)
    | some merchant =>
      let runAt := now + calculateRetryDelay event.attemptCount
      if env.createTaskFails then (⟨false, WAction.error, none⟩, db)
      else
        let td := createTask
          ⟨merchant.id, "dunning_retry",
           ⟨event.invoiceId, event.attemptCount, event.hostedInvoiceUrl⟩,
           TaskStatus.pending, runAt⟩ now db
        if env.usageLogFails then (⟨false, WAction.error, none⟩, td.2)
        else
          let ld := createUsageLog merchant.id "task_scheduled" (some 1) now td.2
          (⟨true, WAction.enqueued, some td.1.id⟩, ld.2)

/-- From `handleInvoicePaymentFailed`: only `billing_reason =
subscription_cycle` enqueues dunning work; every other billing reason is
ignored with no state change. -/
def handleInvoicePaymentFailed (event : SEvent) (env : HandlerEnv) (now : Int)
    (db : DB) : WebhookResult × DB :=
  match event.billingReason with
  | some "subscription_create" => (⟨true, WAction.ignored, none⟩, db)
  | some "subscription_cycle" => enqueueDunningTask event env now db
  | some "subscription_update" => (⟨true, WAction.ignored, none⟩, db)
  | some "manual" => (⟨true, WAction.ignored, none⟩, db)
  | _ => (⟨true, WAction.ignored, none⟩, db)

/-- From `handlePaymentActionRequired`: resolve the tenant, insert a
`notify_action_required` task with `run_at = now`, and log
`action_required_notification`. -/
def handlePaymentActionRequired (event : SEvent) (env : HandlerEnv) (now : Int)
    (db : DB) : WebhookResult × DB :=
  match event.account with
  | none => (⟨true, WAction.error, none⟩, db)
  | some cid =>
    match getMerchantByStripeConnectId cid db with
    | none => (⟨true, WAction.error, none⟩, db)
    | some merchant =>
      if env.createTaskFails then (⟨false, WAction.error, none⟩, db)
      else
        let td := createTask
          ⟨merchant.id, "notify_action_required",
           ⟨event.invoiceId, none, event.hostedInvoiceUrl⟩,
           TaskStatus.pending, now⟩ now db
        if env.usageLogFails then (⟨false, WAction.error, none⟩, td.2)
        else
          let ld := createUsageLog merchant.id "action_required_notification" (some 1) now td.2
          (⟨true, WAction.enqueued, some td.1.id⟩, ld.2)

/-- From `handleSubscriptionDeleted`: log `subscription_churned` for the
resolved tenant; missing account is ignored, lookup failure is an
error. -/
def handleSubscriptionDeleted (event : SEvent) (env : HandlerEnv) (now : Int)
    (db : DB) : WebhookResult × DB :=
  match event.account with
  | none => (⟨true, WAction.ignored, none⟩, db)
  | some cid =>
    match getMerchantByStripeConnectId cid db with
    | none => (⟨true, WAction.error, none⟩, db)
    | some merchant =>
      if env.usageLogFails then (⟨true, WAction.error, none⟩, db)
      else
        let ld := createUsageLog merchant.id "subscription_churned" (some 1) now db
        (⟨true, WAction.ignored, none⟩, ld.2)

/-- From `handleSubscriptionUpdated`: the trust-boundary guard returns
`ignored` with no mutation whenever `event.account` is present; only
platform-side events (no account) resolve the merchant by platform
customer id and write `subscription_plan_id` (the price id when the
subscription is `active` or `trialing`, else `"price_free"`). -/
def handleSubscriptionUpdated (event : SEvent) (now : Int) (db : DB) :
    WebhookResult × DB :=
  if event.account.isSome then (⟨true, WAction.ignored, none⟩, db)
  else
    match event.subPriceId with
    | none => (⟨true, WAction.ignored, none⟩, db)
    | some priceId =>
      match getMerchantByStripeCustomerId event.subCustomerId db with
      | none => (⟨true, WAction.error, none⟩, db)
      | some merchant =>
        let newPlanId :=
          if event.subStatus = "active" ∨ event.subStatus = "trialing" then priceId
          else "price_free"
        (⟨true, WAction.processed, none⟩, updateMerchantPlan merchant.id newPlanId db)

/-- From `handleStripeWebhook`: the atomic event lock is taken first; a
losing writer returns `ignored` immediately, otherwise the event is
routed by type.  The lock insert is the commit point: no branch ever
removes it. -/
def handleStripeWebhook (event : SEvent) (env : HandlerEnv) (now : Int)
    (db : DB) : WebhookResult × DB :=
  let locked := attemptEventLock event.id now db
  if !locked.1 then (⟨false, WAction.ignored, none⟩, locked.2)
  else if event.type = "invoice.payment_failed" then
    handleInvoicePaymentFailed event env now locked.2
  else if event.type = "customer.subscription.updated"
      ∨ event.type = "customer.subscription.created" then
    handleSubscriptionUpdated event now locked.2
  else if event.type = "invoice.payment_action_required" then
    handlePaymentActionRequired event env now locked.2
  else if event.type = "customer.subscription.deleted" then
    handleSubscriptionDeleted event env now locked.2
  else if event.type = "charge.failed" then (⟨true, WAction.ignored, none⟩, locked.2)
  else (⟨true, WAction.ignored, none⟩, locked.2)

/-! ## Worker (`processTask`, `startWorker` later revision, in
`src/server/middleware.ts`) -/

/-- The invoice status read back from the payment provider. -/
inductive InvoiceStatus where
  | paid
  | voided
  | opened
  | other
deriving DecidableEq, Repr

/-- Outcome of one meter-event upload to the payment provider. -/
inductive StripeOutcome where
  | ok
  | idemInUse
  | permanentErr
  | transientErr
deriving DecidableEq, Repr

/-- Oracle for the worker's external collaborators: payment-provider
client construction, invoice lookup, the email gateway, and the
meter-event endpoint (outcome keyed by usage-log id). -/
structure WorkerEnv where
  factoryFails : Bool
  invoiceStatus : InvoiceStatus
  invoiceCustomerEmail : Option String
  emailSendOk : Bool
  stripeReport : Nat → StripeOutcome

/-- A throw inside a task handler, caught by the worker loop. -/
abbrev TaskResult := Except Unit Unit

/-- From the `dunning_retry` arm of `processTask`: load the merchant
(throwing when absent), re-check the monthly quota and on breach mark
the task `failed`, write a `quota_exceeded` log and stop without
sending; otherwise fetch the invoice via the tenant client (which
throws when the factory fails or the merchant has no Connect id),
return silently when it is already `paid`/`void`, and for an `open`
invoice with a customer email write the `dunning_email_sent` log first,
then send, throwing when the gateway refuses. -/
def processDunningRetry (task : Task) (env : WorkerEnv) (now monthStart : Int)
    (w : World) : TaskResult × World :=
  match getMerchant task.merchantId w.db with
  | none => (Except.error (), w)
  | some merchant =>
    let currentUsage := getMonthlyDunningCount task.merchantId monthStart w.db
    let limit := getPlanLimit merchant.subscriptionPlanId
    if currentUsage ≥ limit then
      let db1 := updateTaskStatus task.id TaskStatus.failed w.db
      let ld := createUsageLog task.merchantId "quota_exceeded" (some 1) now db1
      (Except.ok (), { w with db := ld.2 })
    else if env.factoryFails ∨ merchant.stripeConnectId.isNone then
      (Except.error (), w)
    else
      match env.invoiceStatus with
      | InvoiceStatus.paid => (Except.ok (), w)
      | InvoiceStatus.voided => (Except.ok (), w)
      | InvoiceStatus.other => (Except.ok (), w)
      | InvoiceStatus.opened =>
        match env.invoiceCustomerEmail with
        | none => (Except.ok (), w)
        | some email =>
          let ld := createUsageLog task.merchantId "dunning_email_sent" (some 1) now w.db
          if env.emailSendOk then
            (Except.ok (),
             ⟨ld.2, w.emails ++ [⟨email, "dunning_email", task.merchantId⟩]⟩)
          else
            (Except.error (), ⟨ld.2, w.emails⟩)

/-- From the `notify_action_required` arm of `processTask`: fetch the
invoice via the tenant client, send the SCA notification when a
customer email is present, and only then write the `dunning_email_sent`
log; a refused send throws. -/
def processNotifyActionRequired (task : Task) (env : WorkerEnv) (now : Int)
    (w : World) : TaskResult × World :=
  match getMerchant task.merchantId w.db with
  | none => (Except.error (), w)
  | some merchant =>
    if env.factoryFails ∨ merchant.stripeConnectId.isNone then
      (Except.error (), w)
    else
      match env.invoiceCustomerEmail with
      | none => (Except.ok (), w)
      | some email =>
        if env.emailSendOk then
          let ld := createUsageLog task.merchantId "dunning_email_sent" (some 1) now w.db
          (Except.ok (),
           ⟨ld.2, w.emails ++ [⟨email, "action_required", task.merchantId⟩]⟩)
        else (Except.error (), w)

/-- The distinct merchant ids of a batch of pending logs, in first-seen
order (the iteration order of the `byMerchant` map). -/
def merchantKeys (logs : List UsageLog) : List String :=
  (logs.map UsageLog.merchantId).dedup

/-- The per-log body of the reporter loop: non-dunning metrics are marked
without an upload; over-quota dunning rows are marked without calling
the provider (race guard); an upload that succeeds, hits
`idempotency_key_in_use`, or fails permanently is marked; a transient
failure leaves the row unreported. -/
def reporterMarks (env : WorkerEnv) (merchant : Merchant) (monthStart : Int)
    (db : DB) (logs : List UsageLog) : List Nat :=
  logs.foldl
    (fun acc lg =>
      if lg.metricType ≠ "dunning_email_sent" then acc ++ [lg.id]
      else if getMonthlyDunningCount merchant.id monthStart db ≥
          (getPlanConfig merchant.subscriptionPlanId).limit then acc ++ [lg.id]
      else
        match env.stripeReport lg.id with
        | StripeOutcome.ok => acc ++ [lg.id]
        | StripeOutcome.idemInUse => acc ++ [lg.id]
        | StripeOutcome.permanentErr => acc ++ [lg.id]
        | StripeOutcome.transientErr => acc)
    []

/-- The `try` body of `processReportUsage`: take the 100 oldest
unreported logs, group by merchant, skip merchants without Connect or
customer ids, collect the ids to mark (per `reporterMarks`); a factory
failure throws out of the body. -/
def processReportUsageBody (env : WorkerEnv) (monthStart : Int) (db : DB) :
    Except Unit (List Nat) :=
  let pending := getPendingUsageLogs 100 db
  if pending.isEmpty then Except.ok []
  else if env.factoryFails then Except.error ()
  else
    Except.ok <|
      (merchantKeys pending).foldl
        (fun acc mId =>
          match getMerchant mId db with
          | none => acc
          | some merchant =>
            if merchant.stripeConnectId.isNone ∨ merchant.stripeCustomerId.isNone then acc
            else acc ++ reporterMarks env merchant monthStart db
                (pending.filter fun l => l.merchantId == mId))
        []

/-- From `processReportUsage`: run the reporting body, mark the
accumulated set reported, and in a `finally` that runs on success and
failure alike enqueue the successor `report_usage` task for merchant
`"system"` at `now + 5 min`. -/
def processReportUsage (env : WorkerEnv) (now monthStart : Int) (w : World) :
    TaskResult × World :=
  let bodyOut : TaskResult × DB :=
    match processReportUsageBody env monthStart w.db with
    | Except.error () => (Except.error (), w.db)
    | Except.ok ids => (Except.ok (), markUsageAsReported ids now w.db)
  let td := createTask
    ⟨"system", "report_usage", ⟨"", none, none⟩, TaskStatus.pending,
     now + 5 * 60 * 1000⟩ now bodyOut.2
  (bodyOut.1, { w with db := td.2 })

/-- From `processWeeklyDigest`: aggregate and send the digest when the
merchant exists and has an email (a refused send throws), and in a
`finally` enqueue the successor `send_weekly_digest` for the same
merchant at `now + 7 days`. -/
def processWeeklyDigest (task : Task) (env : WorkerEnv) (now : Int)
    (w : World) : TaskResult × World :=
  let bodyOut : TaskResult × World :=
    match getMerchant task.merchantId w.db with
    | none => (Except.ok (), w)
    | some merchant =>
      match merchant.email with
      | none => (Except.ok (), w)
      | some addr =>
        if env.emailSendOk then
          (Except.ok (),
           { w with emails := w.emails ++ [⟨addr, "weekly_digest", task.merchantId⟩] })
        else (Except.error (), w)
  let td := createTask
    ⟨task.merchantId, "send_weekly_digest", ⟨"", none, none⟩, TaskStatus.pending,
     now + 7 * dayMs⟩ now bodyOut.2.db
  (bodyOut.1, { bodyOut.2 with db := td.2 })

/-- From `processTask` (worker revision in `src/server/middleware.ts`):
dispatch on `task.taskType`; unknown types only log. -/
def processTask (task : Task) (env : WorkerEnv) (now monthStart : Int)
    (w : World) : TaskResult × World :=
  if task.taskType = "dunning_retry" then processDunningRetry task env now monthStart w
  else if task.taskType = "report_usage" then processReportUsage env now monthStart w
  else if task.taskType = "notify_action_required" then
    processNotifyActionRequired task env now w
  else if task.taskType = "send_weekly_digest" then processWeeklyDigest task env now w
  else (Except.ok (), w)

/-- What one pass of the worker loop did. -/
inductive IterationResult where
  | idle
  | finished (s : TaskStatus)
deriving DecidableEq, Repr

/-- One iteration of `startWorker.run` (later revision): claim, then
dispatch inside a `try` whose catch marks the task `failed`; a normal
return marks it `completed`.  Exceptions from `processTask` are consumed
here and never reach the poll loop. -/
def runIteration (env : WorkerEnv) (now monthStart : Int) (locked : List Nat)
    (w : World) : IterationResult × World :=
  match claimNextTask now locked w.db with
  | (none, db1) => (IterationResult.idle, { w with db := db1 })
  | (some task, db1) =>
    match processTask task env now monthStart { w with db := db1 } with
    | (Except.ok _, w2) =>
        (IterationResult.finished TaskStatus.completed,
         { w2 with db := updateTaskStatus task.id TaskStatus.completed w2.db })
    | (Except.error _, w2) =>
        (IterationResult.finished TaskStatus.failed,
         { w2 with db := updateTaskStatus task.id TaskStatus.failed w2.db })

/-! ## Token encryption (`encrypt` / `decrypt` in the encryption library)

The wrapper logic — the empty-string early return, the
`iv:authTag:ciphertext` wire format, the `includes(':')` and
three-part checks, and the catch-all that surfaces the stored value on
any failure — is translated from the source.  The AES-256-GCM primitive
itself belongs to the platform crypto library, so it is idealized as an
authenticated cipher: an invertible byte transformation keyed by
`(key, iv)` plus an authentication tag that is an injective function of
the key, the IV and the ciphertext (the idealization of GCM's
unforgeability).  Strings are modelled as byte lists; hex rendering of
a number is its base-16 digit list, whose digits can never collide with
the `':'` separator. -/

/-- The byte of the `':'` separator. -/
def colonByte : Nat := 58

/-- Base-`b` little-endian digit expansion, with an explicit fuel bound so
that the recursion is structural. -/
def digitsAux (b : Nat) : Nat → Nat → List Nat
  | 0, _ => []
  | _ + 1, 0 => []
  | fuel + 1, n + 1 => (n + 1) % b :: digitsAux b fuel ((n + 1) / b)

/-- Hex rendering of a number (its base-16 digits). -/
def hexOfNat (n : Nat) : List Nat := digitsAux 16 n n

/-- Reading a hex rendering back. -/
def natOfHex (l : List Nat) : Nat := Nat.ofDigits 16 l

/-- Injective encoding of a byte list as a single number (the hex body of
the wire format decodes to this number): base-257 positional encoding of
the shifted digits `b + 1`. -/
def encodeBytes (l : List Nat) : Nat := Nat.ofDigits 257 (l.map (· + 1))

/-- Inverse of `encodeBytes` on byte lists. -/
def decodeBytes (n : Nat) : List Nat := (digitsAux 257 n n).map (· - 1)

/-- The keystream byte derived from the key and the IV. -/
def padOf (key iv : Nat) : Nat := (key + iv) % 256

/-- The idealized cipher body: byte-wise addition of the keystream. -/
def encBytes (key iv : Nat) (pt : List Nat) : List Nat :=
  pt.map fun b => (b + padOf key iv) % 256

/-- Inverse of the cipher body on byte values. -/
def decBytes (key iv : Nat) (ct : List Nat) : List Nat :=
  ct.map fun b => (b + (256 - padOf key iv)) % 256

/-- The idealized GCM authentication tag: an injective function of the
key, the IV and the ciphertext, realized as the byte-list code of the
three hex renderings joined by a digit-valued separator. -/
def authTag (key iv : Nat) (ct : List Nat) : Nat :=
  encodeBytes (hexOfNat key ++ 16 :: (hexOfNat iv ++ 16 :: hexOfNat (encodeBytes ct)))

/-- The stored wire format `ivHex:authTagHex:encryptedHex`. -/
def renderTriple (iv tag : Nat) (ct : List Nat) : List Nat :=
  hexOfNat iv ++ colonByte :: (hexOfNat tag ++ colonByte :: hexOfNat (encodeBytes ct))

/-- From `encrypt`: the falsy empty string is returned as is; otherwise
the plaintext is sealed under a caller-visible random IV and rendered as
`iv:authTag:ciphertext`. -/
def encrypt (key iv : Nat) (text : List Nat) : List Nat :=
  if text = [] then text
  else
    let ct := encBytes key iv text
    renderTriple iv (authTag key iv ct) ct

/-- From `decrypt`: falsy or colon-free input is returned unchanged, as
is input that does not split into exactly three parts; otherwise the
parts are decoded and authenticated, and any failure inside the `try`
(here: a tag mismatch) is caught, surfacing the original stored value
instead of raising. -/
def decrypt (key : Nat) (text : List Nat) : List Nat :=
  if text = [] then text
  else if colonByte ∈ text then
    match (text.splitOn colonByte : List (List Nat)) with
    | [ivF, tagF, ctF] =>
      let iv := natOfHex ivF
      let tag := natOfHex tagF
      let ct := decodeBytes (natOfHex ctF)
      if authTag key iv ct = tag then decBytes key iv ct else text
    | _ => text
  else text

/-! ## Derived observers and execution sequences used by the theorems -/

/-- The status of the task row with the given id (`find?` models the SQL
primary-key lookup). -/
def taskStatus? (id : Nat) (db : DB) : Option TaskStatus :=
  (db.tasks.find? fun t => t.id == id).map Task.status

/-- Whether the idempotency ledger holds a row for the event id. -/
def hasEvent (e : String) (db : DB) : Bool :=
  db.processedEvents.any fun p => p.eventId == e

/-- A sequence of `attempt_event_lock` calls on one event id (one entry
per call, with its wall-clock time), returning the call results.  The
serializable insert makes any concurrent interleaving equivalent to such
a sequence. -/
def lockSeq (e : String) : List Int → DB → List Bool
  | [], _ => []
  | now :: rest, db =>
    let r := attemptEventLock e now db
    r.1 :: lockSeq e rest r.2

/-- Total `emails_sent` over the daily-metric rows keyed
`(merchant, day)`. -/
def emailsSentOn (m : String) (d : Int) (db : DB) : Int :=
  ((db.dailyMetrics.filter fun x => x.merchantId == m && x.metricDate == d).map
      DailyMetric.emailsSent).sum

/-- Total `recovered_cents` over the daily-metric rows keyed
`(merchant, day)`. -/
def recoveredOn (m : String) (d : Int) (db : DB) : Int :=
  ((db.dailyMetrics.filter fun x => x.merchantId == m && x.metricDate == d).map
      DailyMetric.recoveredCents).sum

/-- A sequence of `claim_next_task` transactions, each with its own
wall-clock time and its own set of rows locked by concurrent
transactions; returns the successfully claimed tasks in order.  The
skip-locked claim serializes, so any interleaving of concurrent callers
is equivalent to such a sequence. -/
def claimSeq : List (Int × List Nat) → DB → List Task × DB
  | [], db => ([], db)
  | step :: rest, db =>
    match claimNextTask step.1 step.2 db with
    | (none, db1) => claimSeq rest db1
    | (some t, db1) => ((t :: (claimSeq rest db1).1), (claimSeq rest db1).2)

/-! ## Basic lemmas about the store operations -/

theorem attemptEventLock_of_mem (e : String) (now : Int) (db : DB)
    (h : hasEvent e db = true) : attemptEventLock e now db = (false, db) := by
  simp only [attemptEventLock, hasEvent] at *
  simp [h]

theorem attemptEventLock_of_not_mem (e : String) (now : Int) (db : DB)
    (h : hasEvent e db = false) :
    attemptEventLock e now db =
      (true, { db with processedEvents := db.processedEvents ++ [⟨e, now⟩] }) := by
  simp only [attemptEventLock, hasEvent] at *
  simp [h]

theorem hasEvent_after_insert (e : String) (now : Int) (db : DB) :
    hasEvent e { db with processedEvents := db.processedEvents ++ [⟨e, now⟩] } = true := by
  simp [hasEvent]

theorem lockSeq_count_zero (e : String) (times : List Int) (db : DB)
    (h : hasEvent e db = true) : (lockSeq e times db).count true = 0 := by
  induction times generalizing db with
  | nil => simp [lockSeq]
  | cons t rest ih =>
      simp [lockSeq, attemptEventLock_of_mem e t db h, ih db h]

/-- C2 (claim as stated): among any sequence of `attempt_event_lock`
calls on one event id starting from a ledger without that id, exactly
one call — the first — returns true; a conflicting insert is not an
error but resolves as `(false, unchanged)`; and a webhook delivery that
loses the lock returns an `ignored` result with the store untouched (no
task insert, no usage log). -/
theorem eventLock_exactly_once (e : String) (db : DB) (now : Int)
    (times : List Int) (h : hasEvent e db = false) :
    (lockSeq e (now :: times) db).count true = 1
    ∧ (attemptEventLock e now db).1 = true
    ∧ (∀ db2 now2, hasEvent e db2 = true → attemptEventLock e now2 db2 = (false, db2))
    ∧ (∀ event env now2 db2, event.id = e → hasEvent e db2 = true →
        handleStripeWebhook event env now2 db2 = (⟨false, WAction.ignored, none⟩, db2)) := by
  refine ⟨?_, ?_, ?_, ?_⟩
  · rw [show lockSeq e (now :: times) db =
        (attemptEventLock e now db).1 :: lockSeq e times (attemptEventLock e now db).2 from rfl]
    rw [attemptEventLock_of_not_mem e now db h]
    have h2 := lockSeq_count_zero e times _ (hasEvent_after_insert e now db)
    simp [h2]
  · rw [attemptEventLock_of_not_mem e now db h]
  · exact fun db2 now2 h2 => attemptEventLock_of_mem e now2 db2 h2
  · intro event env now2 db2 hid h2
    have h3 : attemptEventLock event.id now2 db2 = (false, db2) :=
      attemptEventLock_of_mem _ now2 db2 (hid ▸ h2)
    simp [handleStripeWebhook, h3]

/-- Witness for `eventLock_exactly_once` at a concrete empty ledger and
two deliveries of event `evt_1`. -/
theorem eventLock_exactly_once_witness :
    (lockSeq "evt_1" [(5 : Int), 6] ⟨[], [], 0, [], 0, [], []⟩).count true = 1 :=
  (eventLock_exactly_once "evt_1" ⟨[], [], 0, [], 0, [], []⟩ 5 [6] (by decide)).1

/-! ## Frame lemmas: no webhook branch ever touches the event ledger
after the lock insert -/

theorem hasEvent_congr (e : String) (db1 db2 : DB)
    (h : db1.processedEvents = db2.processedEvents) :
    hasEvent e db1 = hasEvent e db2 := by
  simp [hasEvent, h]

theorem processedEvents_enqueueDunningTask (event : SEvent) (env : HandlerEnv)
    (now : Int) (db : DB) :
    ((enqueueDunningTask event env now db).2).processedEvents = db.processedEvents := by
  unfold enqueueDunningTask
  repeat' split
  all_goals rfl

theorem processedEvents_handleInvoicePaymentFailed (event : SEvent) (env : HandlerEnv)
    (now : Int) (db : DB) :
    ((handleInvoicePaymentFailed event env now db).2).processedEvents = db.processedEvents := by
  unfold handleInvoicePaymentFailed
  repeat' split
  all_goals first
    | rfl
    | exact processedEvents_enqueueDunningTask event env now db

theorem processedEvents_handlePaymentActionRequired (event : SEvent) (env : HandlerEnv)
    (now : Int) (db : DB) :
    ((handlePaymentActionRequired event env now db).2).processedEvents = db.processedEvents := by
  unfold handlePaymentActionRequired
  repeat' split
  all_goals rfl

theorem processedEvents_handleSubscriptionDeleted (event : SEvent) (env : HandlerEnv)
    (now : Int) (db : DB) :
    ((handleSubscriptionDeleted event env now db).2).processedEvents = db.processedEvents := by
  unfold handleSubscriptionDeleted
  repeat' split
  all_goals rfl

theorem processedEvents_handleSubscriptionUpdated (event : SEvent)
    (now : Int) (db : DB) :
    ((handleSubscriptionUpdated event now db).2).processedEvents = db.processedEvents := by
  unfold handleSubscriptionUpdated
  repeat' split
  all_goals rfl

/-- C10 (implicit): the webhook handler takes the event lock before any
routing and no branch releases it, so the ProcessedEvent row survives
any outcome (including the post-lock error results); every replay of a
recorded event id is answered `ignored` with the store untouched; and
the janitor's sweep keeps exactly the rows younger than 7 days, after
which the id can be locked again. -/
theorem eventLock_persistence (event : SEvent) (env : HandlerEnv) (now : Int) (db : DB) :
    hasEvent event.id ((handleStripeWebhook event env now db).2) = true
    ∧ (hasEvent event.id db = true →
        handleStripeWebhook event env now db = (⟨false, WAction.ignored, none⟩, db))
    ∧ (∀ p, p ∈ (runCleanup now db).processedEvents ↔
        p ∈ db.processedEvents ∧ now - 7 * dayMs ≤ p.processedAt)
    ∧ (∀ e now2,
        (∀ p ∈ db.processedEvents, p.eventId = e → p.processedAt < now - 7 * dayMs) →
        (attemptEventLock e now2 (runCleanup now db)).1 = true) := by
  refine ⟨?_, ?_, ?_, ?_⟩
  · by_cases h : hasEvent event.id db = true
    · have h3 := attemptEventLock_of_mem event.id now db h
      simp [handleStripeWebhook, h3, h]
    · have hf : hasEvent event.id db = false := by simpa using h
      have h3 := attemptEventLock_of_not_mem event.id now db hf
      have hmem := hasEvent_after_insert event.id now db
      unfold handleStripeWebhook
      rw [h3]
      simp only [Bool.not_true, Bool.false_eq_true, if_false]
      split
      · rw [hasEvent_congr _ _ _ (processedEvents_handleInvoicePaymentFailed event env now _)]
        exact hmem
      · split
        · rw [hasEvent_congr _ _ _ (processedEvents_handleSubscriptionUpdated event now _)]
          exact hmem
        · split
          · rw [hasEvent_congr _ _ _
              (processedEvents_handlePaymentActionRequired event env now _)]
            exact hmem
          · split
            · rw [hasEvent_congr _ _ _
                (processedEvents_handleSubscriptionDeleted event env now _)]
              exact hmem
            · split
              · exact hmem
              · exact hmem
  · intro h
    have h3 := attemptEventLock_of_mem event.id now db h
    simp [handleStripeWebhook, h3]
  · intro p
    simp [runCleanup, List.mem_filter, not_lt]
  · intro e now2 h
    have hf : hasEvent e (runCleanup now db) = false := by
      simp only [hasEvent, List.any_eq_false]
      intro p hp
      simp only [runCleanup, List.mem_filter, Bool.not_eq_eq_eq_not, Bool.not_true,
        decide_eq_false_iff_not, not_lt] at hp
      intro hbeq
      have he : p.eventId = e := by simpa using hbeq
      exact absurd (h p hp.1 he) (not_lt.mpr hp.2)
    rw [attemptEventLock_of_not_mem e now2 _ hf]

/-- Witness for `eventLock_persistence`: a `subscription_cycle` failure
event carrying no Connect account id yields an `error` result, yet the
lock row persists and the replayed delivery is answered `ignored`. -/
theorem eventLock_persistence_witness :
    hasEvent "evt_9"
      ((handleStripeWebhook
          ⟨"evt_9", "invoice.payment_failed", none, "in_1", some "subscription_cycle",
           some 1, none, "", none, ""⟩
          ⟨false, false⟩ 0 ⟨[], [], 0, [], 0, [], []⟩).2) = true
    ∧ (handleStripeWebhook
          ⟨"evt_9", "invoice.payment_failed", none, "in_1", some "subscription_cycle",
           some 1, none, "", none, ""⟩
          ⟨false, false⟩ 7 ⟨[], [], 0, [], 0, [⟨"evt_9", 0⟩], []⟩)
        = (⟨false, WAction.ignored, none⟩, ⟨[], [], 0, [], 0, [⟨"evt_9", 0⟩], []⟩)
    ∧ (attemptEventLock "evt_9" 100
        (runCleanup (8 * dayMs) ⟨[], [], 0, [], 0, [⟨"evt_9", 0⟩], []⟩)).1 = true := by
  refine ⟨?_, ?_, ?_⟩
  · exact (eventLock_persistence
      ⟨"evt_9", "invoice.payment_failed", none, "in_1", some "subscription_cycle",
       some 1, none, "", none, ""⟩ ⟨false, false⟩ 0 ⟨[], [], 0, [], 0, [], []⟩).1
  · exact (eventLock_persistence
      ⟨"evt_9", "invoice.payment_failed", none, "in_1", some "subscription_cycle",
       some 1, none, "", none, ""⟩ ⟨false, false⟩ 7
      ⟨[], [], 0, [], 0, [⟨"evt_9", 0⟩], []⟩).2.1 (by decide)
  · exact (eventLock_persistence
      ⟨"evt_9", "invoice.payment_failed", none, "in_1", some "subscription_cycle",
       some 1, none, "", none, ""⟩ ⟨false, false⟩ (8 * dayMs)
      ⟨[], [], 0, [], 0, [⟨"evt_9", 0⟩], []⟩).2.2.2 "evt_9" 100 (by decide)

/-- C8: a `customer.subscription.created` or `customer.subscription.updated`
event carrying a tenant account id is answered `ignored` by the
trust-boundary guard with no state change, and the full webhook handler
leaves the merchants table — in particular every `subscription_plan_id`
— untouched for such an event. -/
theorem subscription_trust_boundary (event : SEvent) (env : HandlerEnv) (now : Int)
    (db : DB) (a : String)
    (hacct : event.account = some a)
    (htype : event.type = "customer.subscription.updated"
      ∨ event.type = "customer.subscription.created") :
    handleSubscriptionUpdated event now db = (⟨true, WAction.ignored, none⟩, db)
    ∧ ((handleStripeWebhook event env now db).2).merchants = db.merchants := by
  have hguard : handleSubscriptionUpdated event now db = (⟨true, WAction.ignored, none⟩, db) := by
    simp [handleSubscriptionUpdated, hacct]
  refine ⟨hguard, ?_⟩
  by_cases h : hasEvent event.id db = true
  · have h3 := attemptEventLock_of_mem event.id now db h
    simp [handleStripeWebhook, h3]
  · have hf : hasEvent event.id db = false := by simpa using h
    have h3 := attemptEventLock_of_not_mem event.id now db hf
    have hguard2 : handleSubscriptionUpdated event now
        { db with processedEvents := db.processedEvents ++ [⟨event.id, now⟩] } =
        (⟨true, WAction.ignored, none⟩,
         { db with processedEvents := db.processedEvents ++ [⟨event.id, now⟩] }) := by
      simp [handleSubscriptionUpdated, hacct]
    rcases htype with ht | ht
    · unfold handleStripeWebhook
      rw [h3]
      simp [ht, hguard2]
    · unfold handleStripeWebhook
      rw [h3]
      simp [ht, hguard2]

/-- Witness for `subscription_trust_boundary`: a tenant-side
subscription event against a one-merchant store leaves that merchant's
plan unchanged. -/
theorem subscription_trust_boundary_witness :
    ((handleStripeWebhook
        ⟨"evt_5", "customer.subscription.updated", some "acct_T", "", none, none, none,
         "cus_1", some "price_pro", "active"⟩
        ⟨false, false⟩ 0
        ⟨[⟨"m1", none, none, some "cus_1", some "price_free"⟩], [], 0, [], 0, [], []⟩).2).merchants
      = [⟨"m1", none, none, some "cus_1", some "price_free"⟩] :=
  (subscription_trust_boundary
    ⟨"evt_5", "customer.subscription.updated", some "acct_T", "", none, none, none,
     "cus_1", some "price_pro", "active"⟩
    ⟨false, false⟩ 0
    ⟨[⟨"m1", none, none, some "cus_1", some "price_free"⟩], [], 0, [], 0, [], []⟩
    "acct_T" rfl (Or.inl rfl)).2

/-- The retry schedule as amended for C7: attempt counts 1, 0 and absent
all map to 3 days (the code defaults falsy attempt counts to 1 before
the lookup), 2 maps to 5 days, and everything from 3 upward to 7
days. -/
def amendedRetrySchedule (a : Option Nat) : Int :=
  match a with
  | none => 3 * dayMs
  | some 0 => 3 * dayMs
  | some 1 => 3 * dayMs
  | some 2 => 5 * dayMs
  | some 3 => 7 * dayMs
  | some _ => 7 * dayMs

/-- C7 counterexample: the claim schedules "7 days otherwise", but an
invoice with `attempt_count = 0` — which is not 1, 2 or 3 — is enqueued
3 days out, because `attempt_count || 1` treats the falsy 0 as 1. -/
theorem retry_schedule_counterexample :
    (enqueueDunningTask
        ⟨"evt_2", "invoice.payment_failed", some "acct_A", "in_1", some "subscription_cycle",
         some 0, none, "", none, ""⟩
        ⟨false, false⟩ 0
        ⟨[⟨"m1", none, some "acct_A", none, none⟩], [], 0, [], 0, [], []⟩).2.tasks.map Task.runAt
      = [3 * dayMs]
    ∧ calculateRetryDelay (some 0) = 3 * dayMs
    ∧ ¬((3 : Int) * dayMs = 7 * dayMs) := by
  refine ⟨by decide, rfl, by decide⟩

/-- C7 as amended: every `dunning_retry` task enqueued by the ingress has
`run_at` equal to the ingress time plus the schedule 3 days for
attempt_count 1 (as well as 0 or missing, which default to 1), 5 days
for 2, 7 days for 3, and 7 days otherwise. -/
theorem retry_schedule_amended (event : SEvent) (env : HandlerEnv) (now : Int)
    (db : DB) (r : WebhookResult) (db2 : DB)
    (h : enqueueDunningTask event env now db = (r, db2))
    (henq : r.action = WAction.enqueued) :
    (∃ t, db2.tasks = db.tasks ++ [t] ∧ t.taskType = "dunning_retry"
       ∧ t.status = TaskStatus.pending
       ∧ t.runAt = now + amendedRetrySchedule event.attemptCount)
    ∧ (∀ a, calculateRetryDelay a = amendedRetrySchedule a) := by
  have hcal : ∀ a, calculateRetryDelay a = amendedRetrySchedule a := by
    intro a
    rcases a with _ | (_ | _ | _ | _ | k) <;> rfl
  refine ⟨?_, hcal⟩
  unfold enqueueDunningTask at h
  split at h
  · injection h with h1 h2
    subst h1
    simp at henq
  · split at h
    · injection h with h1 h2
      subst h1
      simp at henq
    · split at h
      · injection h with h1 h2
        subst h1
        simp at henq
      · split at h
        · injection h with h1 h2
          subst h1
          simp at henq
        · injection h with h1 h2
          subst h2
          refine ⟨_, rfl, rfl, rfl, ?_⟩
          simp [createTask, hcal]

/-- Witness for `retry_schedule_amended` at a concrete second-attempt
invoice: the task lands 5 days out. -/
theorem retry_schedule_amended_witness :
    ∃ t, (enqueueDunningTask
        ⟨"evt_3", "invoice.payment_failed", some "acct_A", "in_2", some "subscription_cycle",
         some 2, none, "", none, ""⟩
        ⟨false, false⟩ 10
        ⟨[⟨"m1", none, some "acct_A", none, none⟩], [], 0, [], 0, [], []⟩).2.tasks
        = [] ++ [t]
      ∧ t.taskType = "dunning_retry" ∧ t.status = TaskStatus.pending
      ∧ t.runAt = 10 + amendedRetrySchedule (some 2) :=
  (retry_schedule_amended
    ⟨"evt_3", "invoice.payment_failed", some "acct_A", "in_2", some "subscription_cycle",
     some 2, none, "", none, ""⟩
    ⟨false, false⟩ 10
    ⟨[⟨"m1", none, some "acct_A", none, none⟩], [], 0, [], 0, [], []⟩
    _ _ rfl (by decide)).1

/-- On a store whose `(merchant, day)` key is unique (the primary-key
invariant), the rollup upsert adds its increments to the keyed sums:
`emails_sent + s` and `recovered_cents + c`, whether the row already
existed or was freshly inserted. -/
theorem upsertDailyMetric_sums (m : String) (d : Int) (c s : Int) (l : List DailyMetric)
    (hkey : (l.filter fun x => x.merchantId == m && x.metricDate == d).length ≤ 1) :
    (((upsertDailyMetric m d c s l).filter fun x =>
        x.merchantId == m && x.metricDate == d).map DailyMetric.emailsSent).sum
      = ((l.filter fun x => x.merchantId == m && x.metricDate == d).map
          DailyMetric.emailsSent).sum + s
    ∧ (((upsertDailyMetric m d c s l).filter fun x =>
        x.merchantId == m && x.metricDate == d).map DailyMetric.recoveredCents).sum
      = ((l.filter fun x => x.merchantId == m && x.metricDate == d).map
          DailyMetric.recoveredCents).sum + c := by
  by_cases hany : (l.any fun x => x.merchantId == m && x.metricDate == d) = true
  · have hup : upsertDailyMetric m d c s l = l.map fun x =>
        if x.merchantId = m ∧ x.metricDate = d then
          { x with recoveredCents := x.recoveredCents + c, emailsSent := x.emailsSent + s }
        else x := by
      simp only [upsertDailyMetric, hany, if_true]
    have hfil : ((l.map fun x =>
        if x.merchantId = m ∧ x.metricDate = d then
          { x with recoveredCents := x.recoveredCents + c, emailsSent := x.emailsSent + s }
        else x).filter fun x => x.merchantId == m && x.metricDate == d)
        = ((l.filter fun x => x.merchantId == m && x.metricDate == d).map fun x =>
            if x.merchantId = m ∧ x.metricDate = d then
              { x with recoveredCents := x.recoveredCents + c, emailsSent := x.emailsSent + s }
            else x) := by
      rw [List.filter_map]
      congr 1
      apply List.filter_congr
      intro x _
      by_cases hx : x.merchantId = m ∧ x.metricDate = d
      · simp [hx]
      · simp [if_neg hx]
    have hne : (l.filter fun x => x.merchantId == m && x.metricDate == d) ≠ [] := by
      rw [ne_eq, List.filter_eq_nil_iff]
      rcases List.any_eq_true.mp hany with ⟨x, hx, hpx⟩
      push_neg
      exact ⟨x, hx, by simpa using hpx⟩
    obtain ⟨x, hx⟩ : ∃ x, (l.filter fun x => x.merchantId == m && x.metricDate == d) = [x] := by
      rcases hfl : l.filter fun x => x.merchantId == m && x.metricDate == d with _ | ⟨x, xs⟩
      · exact absurd hfl hne
      · rw [hfl] at hkey
        simp only [List.length_cons] at hkey
        have : xs = [] := List.eq_nil_of_length_eq_zero (by omega)
        exact ⟨x, by rw [hfl, this]⟩
    have hxkey : x.merchantId = m ∧ x.metricDate = d := by
      have hmem : x ∈ (l.filter fun x => x.merchantId == m && x.metricDate == d) := by
        rw [hx]; exact List.mem_singleton_self x
      have := List.of_mem_filter hmem
      simpa using this
    rw [hup, hfil, hx]
    simp [hxkey]
  · have hup : upsertDailyMetric m d c s l = l ++ [⟨m, d, c, s, 0, 0⟩] := by
      simp only [upsertDailyMetric]
      rw [if_neg]
      simpa using hany
    rw [hup, List.filter_append]
    simp

/-- C3 counterexample: `create_usage_log(m, 'dunning_email_sent', 0)`
increments `emails_sent` by 1, not by the requested 0, because the JS
default `amount || 1` treats the falsy 0 as the schema default 1. -/
theorem usage_rollup_counterexample :
    emailsSentOn "m1" 0 ((createUsageLog "m1" "dunning_email_sent" (some 0) 0
        ⟨[], [], 0, [], 0, [], []⟩).2)
      = emailsSentOn "m1" 0 ⟨[], [], 0, [], 0, [], []⟩ + 1
    ∧ ¬((1 : Int) = 0) :=
  ⟨by decide, by decide⟩

/-- C3 as amended: every successful `create_usage_log(m, t, n)`
atomically inserts the usage-log row (returned with its id) and upserts
`daily_metrics(m, today)`, adding to — never overwriting — existing
counters: `emails_sent` grows by exactly the resolved amount (`n` when
`n ≠ 0`; the default 1 when `n` is 0 or omitted) iff
`t = 'dunning_email_sent'`, else by 0, and `recovered_cents` grows by
0.  The key-uniqueness hypothesis is the table's primary-key
invariant. -/
theorem createUsageLog_rollup (m t : String) (amount : Option Nat) (now : Int) (db : DB)
    (hkey : ((db.dailyMetrics.filter fun x =>
        x.merchantId == m && x.metricDate == dayOf now).length ≤ 1)) :
    (createUsageLog m t amount now db).1.id = db.nextLogId
    ∧ (createUsageLog m t amount now db).2.usageLogs
        = db.usageLogs ++ [(createUsageLog m t amount now db).1]
    ∧ (createUsageLog m t amount now db).1.amount = resolveAmount amount
    ∧ emailsSentOn m (dayOf now) (createUsageLog m t amount now db).2
        = emailsSentOn m (dayOf now) db
          + (if t = "dunning_email_sent" then (resolveAmount amount : Int) else 0)
    ∧ recoveredOn m (dayOf now) (createUsageLog m t amount now db).2
        = recoveredOn m (dayOf now) db
    ∧ (∀ n, amount = some n → n ≠ 0 → resolveAmount amount = n) := by
  have hsums := upsertDailyMetric_sums m (dayOf now) 0
    (if t = "dunning_email_sent" then (resolveAmount amount : Int) else 0)
    db.dailyMetrics hkey
  refine ⟨rfl, rfl, rfl, ?_, ?_, ?_⟩
  · have : (createUsageLog m t amount now db).2.dailyMetrics
        = upsertDailyMetric m (dayOf now) 0
            (if t = "dunning_email_sent" then (resolveAmount amount : Int) else 0)
            db.dailyMetrics := rfl
    simp only [emailsSentOn, this]
    exact hsums.1
  · have : (createUsageLog m t amount now db).2.dailyMetrics
        = upsertDailyMetric m (dayOf now) 0
            (if t = "dunning_email_sent" then (resolveAmount amount : Int) else 0)
            db.dailyMetrics := rfl
    simp only [recoveredOn, this]
    simpa using hsums.2
  · intro n hn hn0
    subst hn
    cases n with
    | zero => exact absurd rfl hn0
    | succ k => rfl

/-- Witness for `createUsageLog_rollup` at a store already holding a
rollup row for the day: the counters are added to, not overwritten. -/
theorem createUsageLog_rollup_witness :
    emailsSentOn "m1" 0 ((createUsageLog "m1" "dunning_email_sent" (some 3) 0
        ⟨[], [], 0, [], 0, [], [⟨"m1", 0, 50, 2, 0, 0⟩]⟩).2)
      = emailsSentOn "m1" 0 ⟨[], [], 0, [], 0, [], [⟨"m1", 0, 50, 2, 0, 0⟩]⟩
        + (if "dunning_email_sent" = "dunning_email_sent" then (resolveAmount (some 3) : Int) else 0) :=
  (createUsageLog_rollup "m1" "dunning_email_sent" (some 3) 0
    ⟨[], [], 0, [], 0, [], [⟨"m1", 0, 50, 2, 0, 0⟩]⟩ (by decide)).2.2.2.1

/-! ## Claim-protocol lemmas -/

theorem find_status_of_setStatus (i : Nat) (s : TaskStatus) (l : List Task)
    (hex : ∃ u ∈ l, u.id = i) :
    (((l.map fun u => if u.id = i then { u with status := s } else u).find?
        fun t => t.id == i).map Task.status) = some s := by
  induction l with
  | nil => simp at hex
  | cons u rest ih =>
    by_cases hu : u.id = i
    · simp only [List.map_cons, if_pos hu]
      rw [List.find?_cons_of_pos _ (by simpa using hu)]
      rfl
    · simp only [List.map_cons, if_neg hu]
      rw [List.find?_cons_of_neg _ (by simpa using hu)]
      apply ih
      rcases hex with ⟨v, hv, hvi⟩
      rcases List.mem_cons.mp hv with rfl | hvrest
      · exact absurd hvi hu
      · exact ⟨v, hvrest, hvi⟩

theorem taskStatus?_updateTaskStatus (i : Nat) (s : TaskStatus) (db : DB)
    (hex : ∃ u ∈ db.tasks, u.id = i) :
    taskStatus? i (updateTaskStatus i s db) = some s :=
  find_status_of_setStatus i s db.tasks hex

theorem taskStatus?_congr (i : Nat) (db1 db2 : DB) (h : db1.tasks = db2.tasks) :
    taskStatus? i db1 = taskStatus? i db2 := by
  simp [taskStatus?, h]

theorem claimNextTask_some_spec (now : Int) (locked : List Nat) (db : DB) (t : Task)
    (db1 : DB) (h : claimNextTask now locked db = (some t, db1)) :
    ∃ pre ∈ db.tasks, pre.id = t.id ∧ pre.status = TaskStatus.pending ∧ pre.runAt ≤ now
      ∧ locked.contains pre.id = false
      ∧ t = { pre with status := TaskStatus.running }
      ∧ db1 = { db with tasks := markRunning pre.id db.tasks }
      ∧ ∀ u ∈ db.tasks, isReady now locked u = true → t.runAt ≤ u.runAt := by
  unfold claimNextTask at h
  rcases harg : (db.tasks.filter (isReady now locked)).argmin Task.runAt with _ | t0
  · rw [harg] at h
    simp at h
  · rw [harg] at h
    rw [Prod.mk.injEq] at h
    obtain ⟨h1, h2⟩ := h
    have ht : { t0 with status := TaskStatus.running } = t := Option.some.inj h1
    subst ht
    subst h2
    have ht0mem : t0 ∈ db.tasks.filter (isReady now locked) :=
      List.argmin_mem (show t0 ∈ _ from harg)
    have ht0 : t0 ∈ db.tasks ∧ isReady now locked t0 = true := by
      have := List.mem_filter.mp ht0mem
      exact ⟨this.1, this.2⟩
    have hparts : t0.status = TaskStatus.pending ∧ t0.runAt ≤ now
        ∧ locked.contains t0.id = false := by
      have h3 := ht0.2
      simp only [isReady, Bool.and_eq_true, decide_eq_true_eq, Bool.not_eq_eq_eq_not,
        Bool.not_true] at h3
      exact ⟨h3.1.1, h3.1.2, by simpa using h3.2⟩
    refine ⟨t0, ht0.1, rfl, hparts.1, hparts.2.1, hparts.2.2, rfl, rfl, ?_⟩
    intro u hu hru
    have humem : u ∈ db.tasks.filter (isReady now locked) :=
      List.mem_filter.mpr ⟨hu, hru⟩
    have hle : Task.runAt t0 ≤ Task.runAt u := List.le_of_mem_argmin humem harg
    exact hle

theorem claimNextTask_none_spec (now : Int) (locked : List Nat) (db : DB) :
    (claimNextTask now locked db).1 = none ↔
      ∀ u ∈ db.tasks, isReady now locked u = false := by
  have h1 : (claimNextTask now locked db).1 = none ↔
      (db.tasks.filter (isReady now locked)).argmin Task.runAt = none := by
    unfold claimNextTask
    rcases harg : (db.tasks.filter (isReady now locked)).argmin Task.runAt with _ | t0 <;>
      simp [harg]
  rw [h1, List.argmin_eq_none, List.filter_eq_nil_iff]
  simp

/-- No row with the given id is claimable (used to show a claimed task
can never be claimed again while nothing resets it to `pending`). -/
def notPendingId (i : Nat) (db : DB) : Prop :=
  ∀ u ∈ db.tasks, u.id = i → u.status ≠ TaskStatus.pending

theorem notPendingId_markRunning (i j : Nat) (db : DB) (h : notPendingId i db) :
    notPendingId i { db with tasks := markRunning j db.tasks } := by
  intro u hu hui
  simp only [markRunning, List.mem_map] at hu
  rcases hu with ⟨v, hv, rfl⟩
  by_cases hvj : v.id = j
  · simp [if_pos hvj]
  · rw [if_neg hvj] at hui ⊢
    exact h v hv hui

theorem notPendingId_claim (i : Nat) (now : Int) (locked : List Nat) (db : DB)
    (h : notPendingId i db) : notPendingId i (claimNextTask now locked db).2 := by
  unfold claimNextTask
  rcases harg : (db.tasks.filter (isReady now locked)).argmin Task.runAt with _ | t0
  · simpa [harg] using h
  · simp only [harg]
    exact notPendingId_markRunning i t0.id db h

theorem claim_ne_of_notPending (i : Nat) (now : Int) (locked : List Nat) (db : DB)
    (t : Task) (db1 : DB) (h : notPendingId i db)
    (hc : claimNextTask now locked db = (some t, db1)) : t.id ≠ i := by
  rcases claimNextTask_some_spec now locked db t db1 hc with
    ⟨pre, hpre, hid, hpend, _⟩
  intro hti
  exact h pre hpre (hid.trans hti) hpend

theorem claim_sets_notPending (now : Int) (locked : List Nat) (db : DB) (t : Task)
    (db1 : DB) (hc : claimNextTask now locked db = (some t, db1)) :
    notPendingId t.id db1 := by
  rcases claimNextTask_some_spec now locked db t db1 hc with
    ⟨pre, hpre, hid, hpend, hrun, hlock, ht, hdb1, hmin⟩
  subst hdb1
  intro u hu hui
  simp only [markRunning, List.mem_map] at hu
  rcases hu with ⟨v, hv, rfl⟩
  by_cases hvj : v.id = pre.id
  · simp [if_pos hvj]
  · rw [if_neg hvj] at hui
    exact absurd (hui.trans hid.symm) hvj

theorem claimSeq_not_mem (steps : List (Int × List Nat)) (db : DB) (i : Nat)
    (h : notPendingId i db) : i ∉ (claimSeq steps db).1.map Task.id := by
  induction steps generalizing db with
  | nil => simp [claimSeq]
  | cons step rest ih =>
    rcases hc : claimNextTask step.1 step.2 db with ⟨r, db1⟩
    have h1 : notPendingId i db1 := by
      have h2 := notPendingId_claim i step.1 step.2 db h
      rwa [hc] at h2
    cases r with
    | none =>
      have hseq : claimSeq (step :: rest) db = claimSeq rest db1 := by
        simp [claimSeq, hc]
      rw [hseq]
      exact ih db1 h1
    | some t =>
      have hseq : (claimSeq (step :: rest) db).1 = t :: (claimSeq rest db1).1 := by
        simp [claimSeq, hc]
      rw [hseq]
      simp only [List.map_cons, List.mem_cons, not_or]
      refine ⟨?_, ih db1 h1⟩
      intro hit
      exact claim_ne_of_notPending i step.1 step.2 db t db1 h hc hit.symm

theorem claimSeq_nodup (steps : List (Int × List Nat)) (db : DB) :
    ((claimSeq steps db).1.map Task.id).Nodup := by
  induction steps generalizing db with
  | nil => simp [claimSeq]
  | cons step rest ih =>
    rcases hc : claimNextTask step.1 step.2 db with ⟨r, db1⟩
    cases r with
    | none =>
      have hseq : claimSeq (step :: rest) db = claimSeq rest db1 := by
        simp [claimSeq, hc]
      rw [hseq]
      exact ih db1
    | some t =>
      have hseq : (claimSeq (step :: rest) db).1 = t :: (claimSeq rest db1).1 := by
        simp [claimSeq, hc]
      rw [hseq, List.map_cons, List.nodup_cons]
      exact ⟨claimSeq_not_mem rest db1 t.id
          (claim_sets_notPending step.1 step.2 db t db1 hc), ih db1⟩

/-- C1: a successful `claim_next_task` returns a row that was `pending`
with `run_at ≤ now`, flips exactly that row to `running` in the same
transaction, and picks a row of least `run_at` among the unlocked ready
rows; it returns `none` exactly when no unlocked ready row exists; and
across any serialized sequence of claim transactions (arbitrary clocks
and lock sets, no janitor release or terminal overwrite in between) no
task id is ever claimed twice. -/
theorem claim_protocol (now : Int) (locked : List Nat) (db : DB)
    (steps : List (Int × List Nat)) :
    (∀ t db1, claimNextTask now locked db = (some t, db1) →
      (∃ pre ∈ db.tasks, pre.id = t.id ∧ pre.status = TaskStatus.pending
        ∧ pre.runAt ≤ now ∧ locked.contains pre.id = false
        ∧ t = { pre with status := TaskStatus.running }
        ∧ db1 = { db with tasks := markRunning pre.id db.tasks })
      ∧ taskStatus? t.id db1 = some TaskStatus.running
      ∧ ∀ u ∈ db.tasks, isReady now locked u = true → t.runAt ≤ u.runAt)
    ∧ ((claimNextTask now locked db).1 = none ↔
        ∀ u ∈ db.tasks, isReady now locked u = false)
    ∧ ((claimSeq steps db).1.map Task.id).Nodup := by
  refine ⟨?_, claimNextTask_none_spec now locked db, claimSeq_nodup steps db⟩
  intro t db1 h
  rcases claimNextTask_some_spec now locked db t db1 h with
    ⟨pre, hpre, hid, hpend, hrun, hlock, ht, hdb1, hmin⟩
  refine ⟨⟨pre, hpre, hid, hpend, hrun, hlock, ht, hdb1⟩, ?_, hmin⟩
  subst hdb1
  have := find_status_of_setStatus pre.id TaskStatus.running db.tasks ⟨pre, hpre, rfl⟩
  rw [← hid]
  exact this

/-- Witness for `claim_protocol`: two claims against a single ready task;
the first claims and flips it to `running`, and the claimed-id list of
the two-step sequence is duplicate-free. -/
theorem claim_protocol_witness :
    taskStatus? 1
      (claimNextTask 100 []
        ⟨[], [⟨1, "m1", "dunning_retry", ⟨"in_1", none, none⟩, TaskStatus.pending, 50, 0⟩],
         2, [], 0, [], []⟩).2 = some TaskStatus.running
    ∧ ((claimSeq [(100, []), (200, [])]
        ⟨[], [⟨1, "m1", "dunning_retry", ⟨"in_1", none, none⟩, TaskStatus.pending, 50, 0⟩],
         2, [], 0, [], []⟩).1.map Task.id).Nodup := by
  have h := claim_protocol 100 []
    ⟨[], [⟨1, "m1", "dunning_retry", ⟨"in_1", none, none⟩, TaskStatus.pending, 50, 0⟩],
     2, [], 0, [], []⟩ [(100, []), (200, [])]
  refine ⟨?_, h.2.2⟩
  exact (h.1 ⟨1, "m1", "dunning_retry", ⟨"in_1", none, none⟩, TaskStatus.running, 50, 0⟩
    (claimNextTask 100 []
      ⟨[], [⟨1, "m1", "dunning_retry", ⟨"in_1", none, none⟩, TaskStatus.pending, 50, 0⟩],
       2, [], 0, [], []⟩).2 (by decide)).2.1

/-! ## Worker-handler theorems -/

/-- C4: when the worker enters a `dunning_retry` task for a merchant
whose monthly dunning count already reached the plan limit, the handler
marks the task `failed`, writes exactly one `quota_exceeded` usage log
(in particular no `dunning_email_sent` log), sends nothing to the email
gateway, and returns without throwing. -/
theorem worker_quota_backstop (task : Task) (env : WorkerEnv) (now monthStart : Int)
    (w : World) (merchant : Merchant)
    (htype : task.taskType = "dunning_retry")
    (hm : getMerchant task.merchantId w.db = some merchant)
    (hq : getMonthlyDunningCount task.merchantId monthStart w.db ≥
          getPlanLimit merchant.subscriptionPlanId)
    (hex : ∃ u ∈ w.db.tasks, u.id = task.id) :
    (processTask task env now monthStart w).1 = Except.ok ()
    ∧ taskStatus? task.id (processTask task env now monthStart w).2.db
        = some TaskStatus.failed
    ∧ (processTask task env now monthStart w).2.db.usageLogs
        = w.db.usageLogs ++ [⟨w.db.nextLogId, task.merchantId, "quota_exceeded", 1, now, none⟩]
    ∧ (processTask task env now monthStart w).2.emails = w.emails := by
  have hpt : processTask task env now monthStart w
      = processDunningRetry task env now monthStart w := by
    simp [processTask, htype]
  have hdr : processDunningRetry task env now monthStart w =
      (Except.ok (),
       { w with db := (createUsageLog task.merchantId "quota_exceeded" (some 1) now
           (updateTaskStatus task.id TaskStatus.failed w.db)).2 }) := by
    unfold processDunningRetry
    rw [hm]
    dsimp only
    rw [if_pos hq]
  rw [hpt, hdr]
  refine ⟨rfl, ?_, rfl, rfl⟩
  exact taskStatus?_updateTaskStatus task.id TaskStatus.failed w.db hex

/-- Witness for `worker_quota_backstop`: a FREE-plan merchant with 20
dunning sends this month (the `price_free` limit) entering the handler
with a claimed task. -/
theorem worker_quota_backstop_witness :
    (processTask
        ⟨1, "m1", "dunning_retry", ⟨"in_1", some 1, none⟩, TaskStatus.running, 0, 0⟩
        ⟨false, InvoiceStatus.opened, some "c@x.io", true, fun _ => StripeOutcome.ok⟩ 5 0
        ⟨⟨[⟨"m1", none, some "acct_A", none, some "price_free"⟩],
          [⟨1, "m1", "dunning_retry", ⟨"in_1", some 1, none⟩, TaskStatus.running, 0, 0⟩],
          2, [⟨7, "m1", "dunning_email_sent", 20, 1, none⟩], 8, [], []⟩, []⟩).1
      = Except.ok ()
    ∧ taskStatus? 1 (processTask
        ⟨1, "m1", "dunning_retry", ⟨"in_1", some 1, none⟩, TaskStatus.running, 0, 0⟩
        ⟨false, InvoiceStatus.opened, some "c@x.io", true, fun _ => StripeOutcome.ok⟩ 5 0
        ⟨⟨[⟨"m1", none, some "acct_A", none, some "price_free"⟩],
          [⟨1, "m1", "dunning_retry", ⟨"in_1", some 1, none⟩, TaskStatus.running, 0, 0⟩],
          2, [⟨7, "m1", "dunning_email_sent", 20, 1, none⟩], 8, [], []⟩, []⟩).2.db
      = some TaskStatus.failed := by
  have h := worker_quota_backstop
    ⟨1, "m1", "dunning_retry", ⟨"in_1", some 1, none⟩, TaskStatus.running, 0, 0⟩
    ⟨false, InvoiceStatus.opened, some "c@x.io", true, fun _ => StripeOutcome.ok⟩ 5 0
    ⟨⟨[⟨"m1", none, some "acct_A", none, some "price_free"⟩],
      [⟨1, "m1", "dunning_retry", ⟨"in_1", some 1, none⟩, TaskStatus.running, 0, 0⟩],
      2, [⟨7, "m1", "dunning_email_sent", 20, 1, none⟩], 8, [], []⟩, []⟩
    ⟨"m1", none, some "acct_A", none, some "price_free"⟩
    rfl (by decide) (by decide)
    ⟨⟨1, "m1", "dunning_retry", ⟨"in_1", some 1, none⟩, TaskStatus.running, 0, 0⟩,
      by decide, rfl⟩
  exact ⟨h.1, h.2.1⟩

/-- C5: the `finally` blocks of the self-scheduling handlers run on
success and failure alike: every `report_usage` execution leaves a
pending successor for merchant `system` at `now + 5 min`, and every
`send_weekly_digest` execution leaves a pending successor for the same
merchant at `now + 7 days`. -/
theorem self_scheduling_liveness (env : WorkerEnv) (now monthStart : Int)
    (w : World) (task : Task) :
    (∃ t ∈ (processReportUsage env now monthStart w).2.db.tasks,
        t.merchantId = "system" ∧ t.taskType = "report_usage"
        ∧ t.status = TaskStatus.pending ∧ t.runAt = now + 5 * 60 * 1000)
    ∧ (∃ t ∈ (processWeeklyDigest task env now w).2.db.tasks,
        t.merchantId = task.merchantId ∧ t.taskType = "send_weekly_digest"
        ∧ t.status = TaskStatus.pending ∧ t.runAt = now + 7 * dayMs) := by
  constructor
  · have h : (processReportUsage env now monthStart w).2.db.tasks
        = w.db.tasks ++ [⟨w.db.nextTaskId, "system", "report_usage", ⟨"", none, none⟩,
            TaskStatus.pending, now + 5 * 60 * 1000, now⟩] := by
      unfold processReportUsage
      rcases hb : processReportUsageBody env monthStart w.db with u | ids
      · cases u
        simp only [hb]
        rfl
      · simp only [hb]
        rfl
    rw [h]
    exact ⟨_, List.mem_append_right _ (List.mem_singleton_self _), rfl, rfl, rfl, rfl⟩
  · have h : (processWeeklyDigest task env now w).2.db.tasks
        = w.db.tasks ++ [⟨w.db.nextTaskId, task.merchantId, "send_weekly_digest",
            ⟨"", none, none⟩, TaskStatus.pending, now + 7 * dayMs, now⟩] := by
      unfold processWeeklyDigest
      repeat' split
      all_goals rfl
    rw [h]
    exact ⟨_, List.mem_append_right _ (List.mem_singleton_self _), rfl, rfl, rfl, rfl⟩

/-! ## Task-id preservation through the handlers (for C6) -/

theorem idPresent_map (i : Nat) (l : List Task) (f : Task → Task)
    (hf : ∀ u, (f u).id = u.id) (hex : ∃ u ∈ l, u.id = i) :
    ∃ u ∈ l.map f, u.id = i := by
  rcases hex with ⟨u, hu, hui⟩
  exact ⟨f u, List.mem_map_of_mem f hu, by rw [hf u, hui]⟩

theorem idPresent_append (i : Nat) (l l2 : List Task) (hex : ∃ u ∈ l, u.id = i) :
    ∃ u ∈ l ++ l2, u.id = i := by
  rcases hex with ⟨u, hu, hui⟩
  exact ⟨u, List.mem_append_left l2 hu, hui⟩

theorem idPresent_processTask (task : Task) (env : WorkerEnv) (now monthStart : Int)
    (w : World) (i : Nat) (hex : ∃ u ∈ w.db.tasks, u.id = i) :
    ∃ u ∈ (processTask task env now monthStart w).2.db.tasks, u.id = i := by
  have hset : ∀ j s (l : List Task), (∃ u ∈ l, u.id = i) →
      ∃ u ∈ l.map fun u => if u.id = j then { u with status := s } else u, u.id = i := by
    intro j s l hl
    apply idPresent_map i l _ ?_ hl
    intro u
    by_cases h : u.id = j <;> simp [h]
  unfold processTask processDunningRetry processReportUsage processNotifyActionRequired
    processWeeklyDigest
  dsimp only
  repeat' split
  all_goals dsimp only
  all_goals first
    | exact hex
    | exact hset _ _ _ hex
    | exact idPresent_append i _ _ hex

/-- C6: for every task the worker loop claims, a normal return from
`processTask` marks it `completed` and a throw marks it `failed` — the
catch consumes the exception, so the poll loop always receives a
normal iteration outcome. -/
theorem worker_outcome_transitions (env : WorkerEnv) (now monthStart : Int)
    (locked : List Nat) (w : World) (task : Task) (db1 : DB)
    (hclaim : claimNextTask now locked w.db = (some task, db1)) :
    (∀ w2, processTask task env now monthStart { w with db := db1 } = (Except.ok (), w2) →
      runIteration env now monthStart locked w
        = (IterationResult.finished TaskStatus.completed,
           { w2 with db := updateTaskStatus task.id TaskStatus.completed w2.db })
      ∧ taskStatus? task.id (runIteration env now monthStart locked w).2.db
          = some TaskStatus.completed)
    ∧ (∀ w2, processTask task env now monthStart { w with db := db1 } = (Except.error (), w2) →
      runIteration env now monthStart locked w
        = (IterationResult.finished TaskStatus.failed,
           { w2 with db := updateTaskStatus task.id TaskStatus.failed w2.db })
      ∧ taskStatus? task.id (runIteration env now monthStart locked w).2.db
          = some TaskStatus.failed) := by
  have hexdb1 : ∃ u ∈ db1.tasks, u.id = task.id := by
    rcases claimNextTask_some_spec now locked w.db task db1 hclaim with
      ⟨pre, hpre, hid, _, _, _, _, hdb1, _⟩
    subst hdb1
    refine ⟨{ pre with status := TaskStatus.running }, ?_, hid⟩
    simp only [markRunning, List.mem_map]
    exact ⟨pre, hpre, by rw [if_pos rfl]⟩
  have hrun : runIteration env now monthStart locked w =
      (match processTask task env now monthStart { w with db := db1 } with
       | (Except.ok _, w2) =>
           (IterationResult.finished TaskStatus.completed,
            { w2 with db := updateTaskStatus task.id TaskStatus.completed w2.db })
       | (Except.error _, w2) =>
           (IterationResult.finished TaskStatus.failed,
            { w2 with db := updateTaskStatus task.id TaskStatus.failed w2.db })) := by
    unfold runIteration
    rw [hclaim]
  constructor
  · intro w2 hp
    have hpres := idPresent_processTask task env now monthStart { w with db := db1 }
      task.id hexdb1
    rw [hp] at hpres
    have heq : runIteration env now monthStart locked w
        = (IterationResult.finished TaskStatus.completed,
           { w2 with db := updateTaskStatus task.id TaskStatus.completed w2.db }) := by
      rw [hrun, hp]
    refine ⟨heq, ?_⟩
    rw [heq]
    exact taskStatus?_updateTaskStatus task.id TaskStatus.completed w2.db hpres
  · intro w2 hp
    have hpres := idPresent_processTask task env now monthStart { w with db := db1 }
      task.id hexdb1
    rw [hp] at hpres
    have heq : runIteration env now monthStart locked w
        = (IterationResult.finished TaskStatus.failed,
           { w2 with db := updateTaskStatus task.id TaskStatus.failed w2.db }) := by
      rw [hrun, hp]
    refine ⟨heq, ?_⟩
    rw [heq]
    exact taskStatus?_updateTaskStatus task.id TaskStatus.failed w2.db hpres

/-- One-task store used by the `worker_outcome_transitions` witness. -/
def sampleWorld : World :=
  ⟨⟨[⟨"m1", none, some "acct_A", none, some "price_free"⟩],
    [⟨1, "m1", "dunning_retry", ⟨"in_1", some 1, none⟩, TaskStatus.pending, 50, 0⟩],
    2, [], 0, [], []⟩, []⟩

/-- The store after the sample task is claimed. -/
def sampleClaimed : DB :=
  ⟨[⟨"m1", none, some "acct_A", none, some "price_free"⟩],
   [⟨1, "m1", "dunning_retry", ⟨"in_1", some 1, none⟩, TaskStatus.running, 50, 0⟩],
   2, [], 0, [], []⟩

/-- The claimed row as returned by `claimNextTask`. -/
def sampleTask : Task :=
  ⟨1, "m1", "dunning_retry", ⟨"in_1", some 1, none⟩, TaskStatus.running, 50, 0⟩

/-- The post-handler world when the gateway refuses the send (the usage
log written before the send remains — deliberate in the source). -/
def sampleAfterFail : World :=
  ⟨⟨[⟨"m1", none, some "acct_A", none, some "price_free"⟩],
    [⟨1, "m1", "dunning_retry", ⟨"in_1", some 1, none⟩, TaskStatus.running, 50, 0⟩],
    2, [⟨0, "m1", "dunning_email_sent", 1, 100, none⟩], 1, [], [⟨"m1", 0, 0, 1, 0, 0⟩]⟩, []⟩

/-- The post-handler world when the gateway accepts the send. -/
def sampleAfterOk : World :=
  ⟨⟨[⟨"m1", none, some "acct_A", none, some "price_free"⟩],
    [⟨1, "m1", "dunning_retry", ⟨"in_1", some 1, none⟩, TaskStatus.running, 50, 0⟩],
    2, [⟨0, "m1", "dunning_email_sent", 1, 100, none⟩], 1, [], [⟨"m1", 0, 0, 1, 0, 0⟩]⟩,
   [⟨"c@x.io", "dunning_email", "m1"⟩]⟩

/-- Witness for `worker_outcome_transitions`: one ready task whose
handler throws (refused email send on an open invoice) ends `failed`,
and the same task with an accepting gateway ends `completed`. -/
theorem worker_outcome_transitions_witness :
    taskStatus? 1
      ((runIteration
        ⟨false, InvoiceStatus.opened, some "c@x.io", false, fun _ => StripeOutcome.ok⟩
        100 0 [] sampleWorld).2.db)
      = some TaskStatus.failed
    ∧ taskStatus? 1
      ((runIteration
        ⟨false, InvoiceStatus.opened, some "c@x.io", true, fun _ => StripeOutcome.ok⟩
        100 0 [] sampleWorld).2.db)
      = some TaskStatus.completed := by
  constructor
  · exact ((worker_outcome_transitions
      ⟨false, InvoiceStatus.opened, some "c@x.io", false, fun _ => StripeOutcome.ok⟩
      100 0 [] sampleWorld sampleTask sampleClaimed (by decide)).2
      sampleAfterFail (by rfl)).2
  · exact ((worker_outcome_transitions
      ⟨false, InvoiceStatus.opened, some "c@x.io", true, fun _ => StripeOutcome.ok⟩
      100 0 [] sampleWorld sampleTask sampleClaimed (by decide)).1
      sampleAfterOk (by rfl)).2

/-! ## Encryption lemmas -/

theorem digitsAux_zero (b : Nat) : ∀ fuel, digitsAux b fuel 0 = [] := by
  intro fuel
  cases fuel <;> rfl

theorem digitsAux_lt (b : Nat) (hb : 0 < b) :
    ∀ fuel n, ∀ x ∈ digitsAux b fuel n, x < b := by
  intro fuel
  induction fuel with
  | zero => intro n x hx; simp [digitsAux] at hx
  | succ f ih =>
    intro n x hx
    cases n with
    | zero => simp [digitsAux] at hx
    | succ k =>
      simp only [digitsAux, List.mem_cons] at hx
      rcases hx with rfl | hx
      · exact Nat.mod_lt _ hb
      · exact ih _ x hx

theorem ofDigits_digitsAux (b : Nat) (hb : 2 ≤ b) :
    ∀ fuel n, n ≤ fuel → Nat.ofDigits b (digitsAux b fuel n) = n := by
  intro fuel
  induction fuel with
  | zero =>
    intro n hn
    interval_cases n
    simp [digitsAux]
  | succ f ih =>
    intro n hn
    cases n with
    | zero => simp [digitsAux]
    | succ k =>
      have hdiv : (k + 1) / b ≤ f := by
        have h1 : (k + 1) / b < k + 1 := Nat.div_lt_self (Nat.succ_pos k) (by omega)
        omega
      simp only [digitsAux, Nat.ofDigits_cons, ih _ hdiv]
      exact Nat.mod_add_div (k + 1) b

theorem digitsAux_ofDigits (b : Nat) (hb : 2 ≤ b) :
    ∀ (l : List Nat) fuel, (∀ x ∈ l, 0 < x ∧ x < b) → Nat.ofDigits b l ≤ fuel →
      digitsAux b fuel (Nat.ofDigits b l) = l := by
  intro l
  induction l with
  | nil =>
    intro fuel _ _
    simpa using digitsAux_zero b fuel
  | cons x rest ih =>
    intro fuel hdig hle
    have hx := hdig x (List.mem_cons_self x rest)
    have hv : Nat.ofDigits b (x :: rest) = x + b * Nat.ofDigits b rest := rfl
    have hE : Nat.ofDigits b rest ≤ Nat.ofDigits b (x :: rest) - 1 := by
      have hbE : Nat.ofDigits b rest ≤ b * Nat.ofDigits b rest :=
        Nat.le_mul_of_pos_left _ (by omega)
      omega
    rcases hfuel : fuel with _ | f
    · exfalso
      rw [hfuel] at hle
      omega
    · rcases hval : Nat.ofDigits b (x :: rest) with _ | k
      · exfalso
        omega
      · have hsplit : digitsAux b (f + 1) (k + 1)
            = (k + 1) % b :: digitsAux b f ((k + 1) / b) := rfl
        rw [← hval, ← hfuel]
        rw [hfuel, hval] at hle ⊢
        rw [hsplit]
        have hk : k + 1 = x + b * Nat.ofDigits b rest := by rw [← hval, hv]
        have hmod : (k + 1) % b = x := by
          rw [hk, Nat.add_mul_mod_self_left, Nat.mod_eq_of_lt hx.2]
        have hdiv : (k + 1) / b = Nat.ofDigits b rest := by
          rw [hk, Nat.add_mul_div_left _ _ (by omega : 0 < b),
            Nat.div_eq_of_lt hx.2, Nat.zero_add]
        rw [hmod, hdiv]
        congr 1
        apply ih f (fun y hy => hdig y (List.mem_cons_of_mem x hy))
        rw [hval] at hE
        omega

theorem natOfHex_hexOfNat (n : Nat) : natOfHex (hexOfNat n) = n :=
  ofDigits_digitsAux 16 (by omega) n n le_rfl

theorem hexOfNat_digits_lt (n : Nat) : ∀ x ∈ hexOfNat n, x < 16 :=
  digitsAux_lt 16 (by omega) n n

theorem decodeBytes_encodeBytes (l : List Nat) (hl : ∀ x ∈ l, x < 256) :
    decodeBytes (encodeBytes l) = l := by
  have hdig : ∀ x ∈ l.map (· + 1), 0 < x ∧ x < 257 := by
    intro x hx
    rcases List.mem_map.mp hx with ⟨y, hy, rfl⟩
    exact ⟨Nat.succ_pos y, by have := hl y hy; omega⟩
  unfold decodeBytes encodeBytes
  rw [digitsAux_ofDigits 257 (by omega) (l.map (· + 1)) _ hdig le_rfl]
  simp [Function.comp_def]

theorem encodeBytes_inj (l1 l2 : List Nat) (h1 : ∀ x ∈ l1, x < 256)
    (h2 : ∀ x ∈ l2, x < 256) (h : encodeBytes l1 = encodeBytes l2) : l1 = l2 := by
  have := congrArg decodeBytes h
  rwa [decodeBytes_encodeBytes l1 h1, decodeBytes_encodeBytes l2 h2] at this

theorem encBytes_lt (key iv : Nat) (pt : List Nat) :
    ∀ x ∈ encBytes key iv pt, x < 256 := by
  intro x hx
  rcases List.mem_map.mp hx with ⟨y, _, rfl⟩
  exact Nat.mod_lt _ (by omega)

theorem decBytes_encBytes (key iv : Nat) (pt : List Nat) (hpt : ∀ b ∈ pt, b < 256) :
    decBytes key iv (encBytes key iv pt) = pt := by
  unfold decBytes encBytes
  rw [List.map_map]
  have hid : ∀ b ∈ pt, ((b + padOf key iv) % 256 + (256 - padOf key iv)) % 256 = b := by
    intro b hb
    have hp : padOf key iv < 256 := Nat.mod_lt _ (by omega)
    rw [Nat.mod_add_mod]
    have h1 : b + padOf key iv + (256 - padOf key iv) = b + 256 := by omega
    rw [h1, Nat.add_mod_right, Nat.mod_eq_of_lt (hpt b hb)]
  calc pt.map (fun b => ((b + padOf key iv) % 256 + (256 - padOf key iv)) % 256)
      = pt.map id := List.map_congr_left hid
    _ = pt := List.map_id pt

/-- The elements of the tag's code list are all bytes. -/
theorem authTag_list_lt (key iv : Nat) (ct : List Nat) :
    ∀ x ∈ hexOfNat key ++ 16 :: (hexOfNat iv ++ 16 :: hexOfNat (encodeBytes ct)), x < 256 := by
  intro x hx
  rcases List.mem_append.mp hx with hx | hx
  · have := hexOfNat_digits_lt key x hx
    omega
  · rcases List.mem_cons.mp hx with rfl | hx
    · omega
    · rcases List.mem_append.mp hx with hx | hx
      · have := hexOfNat_digits_lt iv x hx
        omega
      · rcases List.mem_cons.mp hx with rfl | hx
        · omega
        · have := hexOfNat_digits_lt (encodeBytes ct) x hx
          omega

theorem hexOfNat_inj (m n : Nat) (h : hexOfNat m = hexOfNat n) : m = n := by
  have := congrArg natOfHex h
  rwa [natOfHex_hexOfNat, natOfHex_hexOfNat] at this

theorem authTag_ne_of_ct_ne (key iv : Nat) (ct ct2 : List Nat)
    (hct : ∀ x ∈ ct, x < 256) (hct2 : ∀ x ∈ ct2, x < 256) (hne : ct2 ≠ ct) :
    authTag key iv ct2 ≠ authTag key iv ct := by
  intro h
  have hlist := encodeBytes_inj _ _ (authTag_list_lt key iv ct2) (authTag_list_lt key iv ct) h
  have h1 := List.append_cancel_left hlist
  have h2 := (List.cons.injEq _ _ _ _).mp h1
  have h3 := List.append_cancel_left h2.2
  have h4 := (List.cons.injEq _ _ _ _).mp h3
  have h5 := hexOfNat_inj _ _ h4.2
  exact hne (encodeBytes_inj _ _ hct2 hct h5)

theorem authTag_ne_of_iv_ne (key iv2 iv : Nat) (ct : List Nat) (hne : iv2 ≠ iv) :
    authTag key iv2 ct ≠ authTag key iv ct := by
  intro h
  have hlist := encodeBytes_inj _ _ (authTag_list_lt key iv2 ct) (authTag_list_lt key iv ct) h
  have h1 := List.append_cancel_left hlist
  have h2 := (List.cons.injEq _ _ _ _).mp h1
  have h3 := List.append_cancel_right h2.2
  exact hne (hexOfNat_inj _ _ h3)

theorem splitOn_triple (a b c : List Nat)
    (ha : ∀ x ∈ a, x < 16) (hb : ∀ x ∈ b, x < 16) (hc : ∀ x ∈ c, x < 16) :
    (a ++ colonByte :: (b ++ colonByte :: c)).splitOn colonByte = [a, b, c] := by
  have hsep : ((colonByte == colonByte) = true) := by simp [colonByte]
  have hpa : ∀ x ∈ a, ¬((x == colonByte) = true) := by
    intro x hx
    have := ha x hx
    simp only [colonByte, beq_iff_eq]
    omega
  have hpb : ∀ x ∈ b, ¬((x == colonByte) = true) := by
    intro x hx
    have := hb x hx
    simp only [colonByte, beq_iff_eq]
    omega
  have hpc : ∀ x ∈ c, ¬((x == colonByte) = true) := by
    intro x hx
    have := hc x hx
    simp only [colonByte, beq_iff_eq]
    omega
  show (a ++ colonByte :: (b ++ colonByte :: c)).splitOnP (· == colonByte) = [a, b, c]
  rw [List.splitOnP_first _ a hpa colonByte hsep,
    List.splitOnP_first _ b hpb colonByte hsep,
    List.splitOnP_eq_single _ _ hpc]

theorem decrypt_renderTriple (key iv2 tag2 : Nat) (ct2 : List Nat)
    (hct : ∀ x ∈ ct2, x < 256) :
    decrypt key (renderTriple iv2 tag2 ct2) =
      if authTag key iv2 ct2 = tag2 then decBytes key iv2 ct2
      else renderTriple iv2 tag2 ct2 := by
  have hcol : colonByte ∈ renderTriple iv2 tag2 ct2 := by
    unfold renderTriple
    exact List.mem_append_right _ (List.mem_cons_self _ _)
  have hne : renderTriple iv2 tag2 ct2 ≠ [] := by
    intro h
    rw [h] at hcol
    exact absurd hcol (List.not_mem_nil _)
  unfold decrypt
  rw [if_neg hne, if_pos hcol]
  unfold renderTriple
  rw [splitOn_triple _ _ _ (hexOfNat_digits_lt iv2) (hexOfNat_digits_lt tag2)
    (hexOfNat_digits_lt (encodeBytes ct2))]
  dsimp only
  rw [natOfHex_hexOfNat, natOfHex_hexOfNat, natOfHex_hexOfNat,
    decodeBytes_encodeBytes ct2 hct]

/-- C9: over the idealized authenticated cipher, `decrypt ∘ encrypt` is
the identity on byte strings under any key and IV; and a stored triple
whose tag does not authenticate — in particular any single-component
tampering of a genuine ciphertext (body, IV, or tag) — is surfaced
unchanged by `decrypt` instead of raising. -/
theorem encryption_roundtrip_auth (key iv : Nat) (pt : List Nat)
    (hpt : ∀ b ∈ pt, b < 256) :
    decrypt key (encrypt key iv pt) = pt
    ∧ (∀ iv2 tag2 ct2, (∀ x ∈ ct2, x < 256) → tag2 ≠ authTag key iv2 ct2 →
        decrypt key (renderTriple iv2 tag2 ct2) = renderTriple iv2 tag2 ct2)
    ∧ (∀ ct2, (∀ x ∈ ct2, x < 256) → ct2 ≠ encBytes key iv pt →
        decrypt key (renderTriple iv (authTag key iv (encBytes key iv pt)) ct2)
          = renderTriple iv (authTag key iv (encBytes key iv pt)) ct2)
    ∧ (∀ iv2, iv2 ≠ iv →
        decrypt key (renderTriple iv2 (authTag key iv (encBytes key iv pt)) (encBytes key iv pt))
          = renderTriple iv2 (authTag key iv (encBytes key iv pt)) (encBytes key iv pt)) := by
  have hbadtag : ∀ iv2 tag2 ct2, (∀ x ∈ ct2, x < 256) → tag2 ≠ authTag key iv2 ct2 →
      decrypt key (renderTriple iv2 tag2 ct2) = renderTriple iv2 tag2 ct2 := by
    intro iv2 tag2 ct2 hct hbad
    rw [decrypt_renderTriple key iv2 tag2 ct2 hct, if_neg (fun h => hbad h.symm)]
  refine ⟨?_, hbadtag, ?_, ?_⟩
  · rcases hpt0 : pt with _ | ⟨x, rest⟩
    · rfl
    · rw [← hpt0]
      have henc : encrypt key iv pt
          = renderTriple iv (authTag key iv (encBytes key iv pt)) (encBytes key iv pt) := by
        unfold encrypt
        rw [if_neg (by rw [hpt0]; simp)]
      rw [henc, decrypt_renderTriple key iv _ _ (encBytes_lt key iv pt), if_pos rfl]
      exact decBytes_encBytes key iv pt hpt
  · intro ct2 hct2 hne
    apply hbadtag iv _ ct2 hct2
    exact (authTag_ne_of_ct_ne key iv (encBytes key iv pt) ct2
      (encBytes_lt key iv pt) hct2 hne).symm
  · intro iv2 hne
    apply hbadtag iv2 _ (encBytes key iv pt) (encBytes_lt key iv pt)
    exact (authTag_ne_of_iv_ne key iv2 iv (encBytes key iv pt) hne).symm

/-- Witness for `encryption_roundtrip_auth`: a concrete two-byte
plaintext round-trips, and flipping one ciphertext byte is surfaced
unchanged. -/
theorem encryption_roundtrip_auth_witness :
    decrypt 7 (encrypt 7 3 [104, 105]) = [104, 105]
    ∧ decrypt 7 (renderTriple 3 (authTag 7 3 (encBytes 7 3 [104, 105])) [99, 115])
        = renderTriple 3 (authTag 7 3 (encBytes 7 3 [104, 105])) [99, 115] := by
  have h := encryption_roundtrip_auth 7 3 [104, 105] (by decide)
  refine ⟨h.1, ?_⟩
  exact h.2.2.1 [99, 115] (by decide) (by decide)

end Genesis
